import Mathlib

/-!
Shallow embedding of the letterboxd-recommender core
(`src/letterboxd_recommender/core/nlp.py` and
`src/letterboxd_recommender/core/recommender.py`).

Conventions of the embedding:
* Python `float` scores are modelled as exact rationals (`ℚ`).
* Python `set[str]` is modelled as `Finset String`.
* The external metadata provider (`slug -> FilmMetadata`, may raise
  `FilmMetadataError`) is modelled as a function `String → Option FilmMetadata`
  (`none` = the fetch raised).
* The external ingested-lists store (`load_ingested_lists`, may raise
  `FileNotFoundError`) is modelled as a function `String → Option IngestedLists`.
* Python exceptions raised by the core itself become an `Except RecError` result.
* String handling (lowercasing, whitespace, word characters) is modelled over
  ASCII, which covers all identifiers and keywords the code manipulates.
-/

namespace LBX

/-! ## Python-style string helpers

All string operations are implemented by structural recursion over the
character list, so that every definition evaluates inside the kernel. -/

/-- Python `str.lower()` (ASCII). -/
def strLower (s : String) : String :=
  (s.toList.map Char.toLower).asString

/-- Python `str.strip()`: whitespace stripped from both ends. -/
def pyStrip (s : String) : String :=
  (((s.toList.dropWhile Char.isWhitespace).reverse.dropWhile Char.isWhitespace).reverse).asString

/-- Python `str.split()` (no argument): maximal non-whitespace runs. -/
def pySplitWs (s : String) : List String :=
  go s.toList []
where
  go : List Char → List Char → List String
    | [], acc => if acc.isEmpty then [] else [acc.reverse.asString]
    | c :: rest, acc =>
      if c.isWhitespace then
        if acc.isEmpty then go rest [] else acc.reverse.asString :: go rest []
      else go rest (c :: acc)

/-- Python `sep.join(parts)`. -/
def pyJoin (sep : String) : List String → String
  | [] => ""
  | [x] => x
  | x :: rest => x ++ sep ++ pyJoin sep rest

/-- Python `str.split(ch)` for a one-character separator (keeps empties). -/
def splitChar (sep : Char) (s : String) : List String :=
  go s.toList []
where
  go : List Char → List Char → List String
    | [], acc => [acc.reverse.asString]
    | c :: rest, acc =>
      if c = sep then acc.reverse.asString :: go rest [] else go rest (c :: acc)

/-- Python `str.startswith(pre)`. -/
def strStartsWith (s pre : String) : Bool :=
  s.toList.take pre.toList.length == pre.toList

/-- `_normalise_text_token` from recommender.py (also `_normalise_token` in
nlp.py): strip, lowercase, collapse internal whitespace
(`" ".join(value.split())`). -/
def normaliseTextToken (s : String) : String :=
  pyJoin " " (pySplitWs (strLower (pyStrip s)))

/-- Index of the first occurrence of `pat` in `hay` (Python `str.find`,
as `Option` instead of `-1`). -/
def findSubIdx (hay pat : List Char) : Option Nat :=
  (List.range (hay.length + 1)).find? (fun i => (hay.drop i).take pat.length == pat)

/-- Python `pat in hay` substring containment. -/
def containsSub (hay pat : String) : Bool :=
  (findSubIdx hay.toList pat.toList).isSome

/-- Python `dict.fromkeys(...)` de-duplication keeping first occurrences. -/
def pyDedup (l : List String) : List String :=
  go l ∅
where
  go : List String → Finset String → List String
    | [], _ => []
    | s :: rest, seen =>
      if s ∈ seen then go rest seen else s :: go rest (insert s seen)

/-- Python `str.title()` over ASCII: a letter is uppercased when the previous
character is not a letter, lowercased otherwise. -/
def pyTitle (s : String) : String :=
  (go s.toList false).asString
where
  go : List Char → Bool → List Char
    | [], _ => []
    | c :: rest, prevAlpha =>
      if c.isAlpha then
        (if prevAlpha then c.toLower else c.toUpper) :: go rest true
      else
        c :: go rest false

/-- Strip the characters of `cs` from both ends of a string
(Python `str.strip(chars)`). -/
def stripChars (s : String) (cs : List Char) : String :=
  (((s.toList.dropWhile (cs.contains ·)).reverse.dropWhile (cs.contains ·)).reverse).asString

/-! ## Data model -/

/-- `FilmMetadata` (film_metadata.py). Every field but the slug is optional;
`directors`/`genres`/`countries` default to `None` in the source, and the core
always reads them through `... or []`. -/
structure FilmMetadata where
  slug : String
  title : Option String := none
  year : Option Int := none
  directors : Option (List String) := none
  genres : Option (List String) := none
  countries : Option (List String) := none
  runtime_minutes : Option Int := none
  average_rating : Option ℚ := none
deriving DecidableEq, Repr

/-- Python `meta.xs or []`. -/
def orEmpty (l : Option (List String)) : List String := l.getD []

/-- The watched/watchlist slug lists persisted by ingestion
(`IngestedLists` in dataframe.py, as consumed by the core). -/
structure IngestedLists where
  watched : List String
  watchlist : List String
deriving DecidableEq, Repr

/-- Errors the embedded core can signal: `RecommendationError` (validation),
`FileNotFoundError` from `load_ingested_lists` (user not ingested), and a
propagated `FilmMetadataError`. -/
inductive RecError where
  | validation (msg : String)
  | notFound
  | metadataError
deriving DecidableEq, Repr

/-! ## nlp.py: regex building blocks

The parser in nlp.py is regex-based. Each concrete regex is hand-compiled
here into position-based matchers over an array of characters, following
Python `re` semantics (leftmost match, alternation tried left to right,
lazy/greedy quantifiers) for the specific patterns in the source. -/

/-- Python regex word character `\w` (ASCII). -/
def isWordChar (c : Char) : Bool := c.isAlphanum || c = '_'

/-- Lowercase ASCII letter, the `[a-z]` character class. -/
def isAZ (c : Char) : Bool := 'a' ≤ c && c ≤ 'z'

def isWordAt (arr : Array Char) (p : Nat) : Bool :=
  match arr[p]? with
  | some c => isWordChar c
  | none => false

/-- The character at `p` exists and lies in `[a-z]`. -/
def isAZAt (arr : Array Char) (p : Nat) : Bool :=
  match arr[p]? with
  | some c => isAZ c
  | none => false

/-- The zero-width `\b` assertion between positions `p-1` and `p`. -/
def wordBoundary (arr : Array Char) (p : Nat) : Bool :=
  (if p = 0 then false else isWordAt arr (p - 1)) != isWordAt arr p

/-- Match a literal at position `p`, returning the position after it. -/
def matchLit (arr : Array Char) (p : Nat) (lit : List Char) : Option Nat :=
  if (arr.extract p (p + lit.length)).toList = lit then some (p + lit.length) else none

/-- Greedy `\s*`: first non-whitespace position at or after `p` (the fuel
argument `arr.size` makes the recursion structural). -/
def skipWsGo (arr : Array Char) : Nat → Nat → Nat
  | 0, p => p
  | fuel + 1, p =>
    match arr[p]? with
    | some c => if c.isWhitespace then skipWsGo arr fuel (p + 1) else p
    | none => p

def skipWs (arr : Array Char) (p : Nat) : Nat :=
  skipWsGo arr arr.size p

/-- `\s+`: at least one whitespace character, greedy. -/
def matchWs1 (arr : Array Char) (p : Nat) : Option Nat :=
  let q := skipWs arr p
  if p < q then some q else none

/-- Exactly `n` digits starting at `p`; returns their value and the end
position. -/
def matchDigits (arr : Array Char) (p n : Nat) : Option (Nat × Nat) :=
  let cs := (arr.extract p (p + n)).toList
  if cs.length = n ∧ cs.all Char.isDigit then
    some (cs.foldl (fun a c => 10 * a + (c.toNat - 48)) 0, p + n)
  else none

/-- Leftmost-match search: try a pattern at every start position in order. -/
def searchPos (arr : Array Char) (f : Nat → Option β) : Option β :=
  (List.range (arr.size + 1)).findSome? f

/-- Length of the maximal run of characters satisfying `cls` from `p`
(fuel-structural like `skipWsGo`). -/
def classRunGo (arr : Array Char) (cls : Char → Bool) : Nat → Nat → Nat
  | 0, _ => 0
  | fuel + 1, p =>
    match arr[p]? with
    | some c => if cls c then classRunGo arr cls fuel (p + 1) + 1 else 0
    | none => 0

def classRun (arr : Array Char) (cls : Char → Bool) (p : Nat) : Nat :=
  classRunGo arr cls arr.size p

/-! ## nlp.py: data model -/

inductive RefinementIntent where
  | more
  | refine
deriving DecidableEq, Repr

/-- `RefinementConstraints` (nlp.py). Python tuples of strings become lists. -/
structure RefinementConstraints where
  k : Option Int := none
  include_genres : List String := []
  year_min : Option Int := none
  year_max : Option Int := none
  include_countries : List String := []
  similar_to_title : Option String := none
deriving DecidableEq, Repr

structure RefinementParseResult where
  intent : RefinementIntent
  constraints : RefinementConstraints
  raw_prompt : String
deriving DecidableEq, Repr

/-! ## nlp.py: the five extraction helpers -/

/-- The match of `^\s*(\d{1,2})\b`: the greedy `{1,2}` tries two digits, then
one; `\b` after a digit holds iff the next character is not a word character. -/
def parseKMatch (prompt : String) : Option Nat :=
  let arr := prompt.toList.toArray
  let q := skipWs arr 0
  match matchDigits arr q 2 with
  | some (v, p) => if isWordAt arr p then none else some v
  | none =>
    match matchDigits arr q 1 with
    | some (v, p) => if isWordAt arr p then none else some v
    | none => none

/-- `_parse_k`: regex `^\s*(\d{1,2})\b`, value accepted only in `[1, 20]`. -/
def parseK (prompt : String) : Option Int :=
  match parseKMatch prompt with
  | some k => if 1 ≤ k ∧ k ≤ 20 then some (k : Int) else none
  | none => none

/-- `\b(?:between|from)\s+(\d{4})\s+(?:and|to)\s+(\d{4})\b` at position `i`. -/
def yearBetweenAt (arr : Array Char) (i : Nat) : Option (Nat × Nat) := do
  guard (wordBoundary arr i)
  let p ← matchLit arr i "between".toList <|> matchLit arr i "from".toList
  let p ← matchWs1 arr p
  let (y1, p) ← matchDigits arr p 4
  let p ← matchWs1 arr p
  let p ← matchLit arr p "and".toList <|> matchLit arr p "to".toList
  let p ← matchWs1 arr p
  let (y2, p) ← matchDigits arr p 4
  guard (wordBoundary arr p)
  pure (y1, y2)

/-- `\bin\s+(\d{4})\b` at position `i`. -/
def yearInAt (arr : Array Char) (i : Nat) : Option Nat := do
  guard (wordBoundary arr i)
  let p ← matchLit arr i "in".toList
  let p ← matchWs1 arr p
  let (y, p) ← matchDigits arr p 4
  guard (wordBoundary arr p)
  pure y

/-- `\b(?:before|earlier\s+than|prior\s+to)\s+(\d{4})\b` at position `i`. -/
def yearBeforeAt (arr : Array Char) (i : Nat) : Option Nat := do
  guard (wordBoundary arr i)
  let p ←
    matchLit arr i "before".toList
    <|> (do
          let p ← matchLit arr i "earlier".toList
          let p ← matchWs1 arr p
          matchLit arr p "than".toList)
    <|> (do
          let p ← matchLit arr i "prior".toList
          let p ← matchWs1 arr p
          matchLit arr p "to".toList)
  let p ← matchWs1 arr p
  let (y, p) ← matchDigits arr p 4
  guard (wordBoundary arr p)
  pure y

/-- `\bafter\s+(\d{4})\b` at position `i`. -/
def yearAfterAt (arr : Array Char) (i : Nat) : Option Nat := do
  guard (wordBoundary arr i)
  let p ← matchLit arr i "after".toList
  let p ← matchWs1 arr p
  let (y, p) ← matchDigits arr p 4
  guard (wordBoundary arr p)
  pure y

/-- `\b(?:since|from)\s+(\d{4})\b` at position `i`. -/
def yearSinceAt (arr : Array Char) (i : Nat) : Option Nat := do
  guard (wordBoundary arr i)
  let p ← matchLit arr i "since".toList <|> matchLit arr i "from".toList
  let p ← matchWs1 arr p
  let (y, p) ← matchDigits arr p 4
  guard (wordBoundary arr p)
  pure y

/-- `_parse_year_bounds`: ordered pattern attempts, first match wins. -/
def parseYearBounds (prompt : String) : Option Int × Option Int :=
  let arr := (strLower prompt).toList.toArray
  match searchPos arr (yearBetweenAt arr) with
  | some (y1, y2) => (some (min y1 y2 : Nat), some (max y1 y2 : Nat))
  | none =>
  match searchPos arr (yearInAt arr) with
  | some y => (some (y : Nat), some (y : Nat))
  | none =>
  match searchPos arr (yearBeforeAt arr) with
  | some y => (none, some ((y : Int) - 1))
  | none =>
  match searchPos arr (yearAfterAt arr) with
  | some y => (some ((y : Int) + 1), none)
  | none =>
  match searchPos arr (yearSinceAt arr) with
  | some y => (some (y : Nat), none)
  | none => (none, none)

/-- The characters stripped off a parsed similar-to title:
`" \"'“”‘’.,;:!?"` (written via code points). -/
def titleStripChars : List Char :=
  [' ', '"', Char.ofNat 39, Char.ofNat 8220, Char.ofNat 8221,
   Char.ofNat 8216, Char.ofNat 8217, '.', ',', ';', ':', '!', '?']

/-- `_parse_similar_to_title`: substring search for `" like "` on the
lowercased prompt (or a prompt starting with `"like "`), slicing the
original-case prompt, truncating at the first clause boundary in the fixed
list, then stripping quotes/punctuation. -/
def parseSimilarToTitle (raw : String) : Option String :=
  let lowered := strLower raw
  let idxOpt : Option Nat :=
    match findSubIdx lowered.toList " like ".toList with
    | some i => some i
    | none => if strStartsWith lowered "like " then some 0 else none
  match idxOpt with
  | none => none
  | some idx =>
    let title :=
      if idx ≠ 0 then pyStrip ((raw.toList.drop (idx + 6)).asString)
      else pyStrip ((raw.toList.drop 5).asString)
    let boundaries := [" but ", " with ", " from ", " in "]
    let title :=
      match boundaries.findSome? (fun b => findSubIdx (strLower title).toList b.toList) with
      | some bidx => pyStrip ((title.toList.take bidx).asString)
      | none => title
    let t := stripChars title titleStripChars
    if t = "" then none else some t

/-- Character class `[a-z\-\s/,&]` of the genre regexes. -/
def genreClassChar (c : Char) : Bool :=
  isAZ c || c = '-' || c.isWhitespace || c = '/' || c = ',' || c = '&'

/-- `\b([a-z][a-z\-\s/,&]+?)\s+genre\b` at position `i` (lazy group: shortest
extension that lets the rest match), returning the captured group. -/
def genreRe1At (arr : Array Char) (i : Nat) : Option String := do
  guard (wordBoundary arr i)
  guard (isAZAt arr i)
  (List.range (arr.size + 1)).findSome? (fun mm =>
    let m := mm + 1
    let grp := arr.extract (i + 1) (i + 1 + m)
    if grp.size = m ∧ grp.toList.all genreClassChar then
      (do
        let p ← matchWs1 arr (i + 1 + m)
        let p ← matchLit arr p "genre".toList
        guard (wordBoundary arr p)
        pure ((arr.extract i (i + 1 + m)).toList.asString))
    else none)

/-- `\b(?:from|in)\s+([a-z][a-z\-\s/,&]+)\b` at position `i` (greedy group:
longest class run whose end satisfies `\b`), returning the captured group. -/
def genreRe2At (arr : Array Char) (i : Nat) : Option String := do
  guard (wordBoundary arr i)
  let p ← matchLit arr i "from".toList <|> matchLit arr i "in".toList
  let p ← matchWs1 arr p
  guard (isAZAt arr p)
  let maxRun := classRun arr genreClassChar (p + 1)
  (List.range maxRun).findSome? (fun d =>
    let m := maxRun - d
    if 1 ≤ m ∧ wordBoundary arr (p + 1 + m) then
      some ((arr.extract p (p + 1 + m)).toList.asString)
    else none)

/-- One match of `_GENRE_SPLIT_RE` = `\s*(?:,|/|\band\b|\bor\b)\s*` starting
exactly at `q`, returning the end position. -/
def genreSepAt (arr : Array Char) (q : Nat) : Option Nat := do
  let p := skipWs arr q
  let p2 ←
    (match arr[p]? with
     | some ',' => some (p + 1)
     | some '/' => some (p + 1)
     | _ => none)
    <|> (do
          guard (wordBoundary arr p)
          let r ← matchLit arr p "and".toList
          guard (wordBoundary arr r)
          pure r)
    <|> (do
          guard (wordBoundary arr p)
          let r ← matchLit arr p "or".toList
          guard (wordBoundary arr r)
          pure r)
  pure (skipWs arr p2)

/-- Leftmost separator match at or after `cur`: start and end positions. -/
def findSep (arr : Array Char) (cur : Nat) : Option (Nat × Nat) :=
  (List.range (arr.size + 1)).findSome? (fun q =>
    if q < cur then none else (genreSepAt arr q).map (fun e => (q, e)))

/-- `re.split` driver for `_GENRE_SPLIT_RE`. Every separator match consumes at
least one character, so the position strictly increases; the fuel argument
(`arr.size + 2` at the top call) only discharges termination. -/
def reSplitGo (arr : Array Char) : Nat → Nat → List String
  | _, 0 => []
  | cur, fuel + 1 =>
    match findSep arr cur with
    | some (q, e) =>
      (arr.extract cur q).toList.asString :: reSplitGo arr (max e (cur + 1)) fuel
    | none => [(arr.extract cur arr.size).toList.asString]

def genreSplit (chunk : String) : List String :=
  let arr := chunk.toList.toArray
  reSplitGo arr 0 (arr.size + 2)

/-- `_parse_include_genres`. -/
def parseIncludeGenres (prompt : String) : List String :=
  let p := strLower prompt
  let arr := p.toList.toArray
  let chunkOpt : Option String :=
    match searchPos arr (genreRe1At arr) with
    | some g => some g
    | none =>
      if containsSub p "genre" then searchPos arr (genreRe2At arr) else none
  match chunkOpt with
  | none => []
  | some chunk =>
    let chunk := normaliseTextToken chunk
    let glue : List String := ["more", "but", "from", "only", "just", "please"]
    let words := (splitChar ' ' chunk).filter (· ≠ "")
    let words := words.dropWhile (glue.contains ·)
    let chunk := pyJoin " " words
    let parts := ((genreSplit chunk).filter (fun tok => pyStrip tok ≠ "")).map normaliseTextToken
    let parts := parts.filter (fun q => ¬ (["a", "an", "the", "movies", "films"].contains q))
    pyDedup parts

/-- Character class `[a-z\s]` of the country regexes. -/
def countryClassChar (c : Char) : Bool := isAZ c || c.isWhitespace

/-- `\bfrom\s+([a-z][a-z\s]+?)\b(?:\s+(?:films|movies|cinema|country)\b|$)`
at position `i`, returning the captured group. -/
def countryRe1At (arr : Array Char) (i : Nat) : Option String := do
  guard (wordBoundary arr i)
  let p ← matchLit arr i "from".toList
  let p ← matchWs1 arr p
  guard (isAZAt arr p)
  (List.range (arr.size + 1)).findSome? (fun mm =>
    let m := mm + 1
    let grp := arr.extract (p + 1) (p + 1 + m)
    if grp.size = m ∧ grp.toList.all countryClassChar then
      (do
        let g := p + 1 + m
        guard (wordBoundary arr g)
        let _ ←
          (do
            let r ← matchWs1 arr g
            let r ←
              matchLit arr r "films".toList <|> matchLit arr r "movies".toList
              <|> matchLit arr r "cinema".toList <|> matchLit arr r "country".toList
            guard (wordBoundary arr r)
            pure ())
          <|> (if g = arr.size then some () else none)
        pure ((arr.extract p (p + 1 + m)).toList.asString))
    else none)

/-- `\b([a-z][a-z\s]+?)\s+cinema\b` at position `i`. -/
def countryRe2At (arr : Array Char) (i : Nat) : Option String := do
  guard (wordBoundary arr i)
  guard (isAZAt arr i)
  (List.range (arr.size + 1)).findSome? (fun mm =>
    let m := mm + 1
    let grp := arr.extract (i + 1) (i + 1 + m)
    if grp.size = m ∧ grp.toList.all countryClassChar then
      (do
        let p ← matchWs1 arr (i + 1 + m)
        let p ← matchLit arr p "cinema".toList
        guard (wordBoundary arr p)
        pure ((arr.extract i (i + 1 + m)).toList.asString))
    else none)

/-- `_parse_include_countries`: only attempted when the prompt mentions
"country" or "cinema". -/
def parseIncludeCountries (prompt : String) : List String :=
  let p := strLower prompt
  if ¬ (containsSub p "country" || containsSub p "cinema") then []
  else
    let arr := p.toList.toArray
    match searchPos arr (countryRe1At arr) with
    | some g =>
      let c := normaliseTextToken g
      if c ≠ "" then [c] else []
    | none =>
      match searchPos arr (countryRe2At arr) with
      | some g =>
        let c := normaliseTextToken g
        if c ≠ "" then [c] else []
      | none => []

/-- `parse_refinement_prompt` (nlp.py). -/
def parse_refinement_prompt (prompt : Option String) : RefinementParseResult :=
  let raw := pyStrip (prompt.getD "")
  if raw = "" then
    { intent := .refine, constraints := {}, raw_prompt := raw }
  else
    let lowered := strLower raw
    let intent : RefinementIntent :=
      if containsSub lowered "more" then .more else .refine
    { intent := intent
      constraints :=
        { k := parseK raw
          include_genres := parseIncludeGenres raw
          year_min := (parseYearBounds raw).1
          year_max := (parseYearBounds raw).2
          include_countries := parseIncludeCountries raw
          similar_to_title := parseSimilarToTitle raw }
      raw_prompt := raw }

/-! ## recommender.py: constants and data model -/

/-- The fixed ordered candidate pool (`POPULAR_FILM_SLUGS`). -/
def POPULAR_FILM_SLUGS : List String :=
  ["the-godfather",
   "the-godfather-part-ii",
   "the-dark-knight",
   "pulp-fiction",
   "fight-club",
   "the-shawshank-redemption",
   "goodfellas",
   "the-lord-of-the-rings-the-fellowship-of-the-ring",
   "the-lord-of-the-rings-the-two-towers",
   "the-lord-of-the-rings-the-return-of-the-king",
   "spirited-away",
   "parasite",
   "inception",
   "interstellar",
   "the-matrix",
   "blade-runner",
   "blade-runner-2049",
   "alien",
   "aliens",
   "taxi-driver",
   "apocalypse-now",
   "seven",
   "whiplash",
   "la-la-land",
   "moonlight",
   "the-grand-budapest-hotel",
   "mad-max-fury-road",
   "no-country-for-old-men",
   "get-out",
   "the-social-network",
   "there-will-be-blood",
   "the-silence-of-the-lambs",
   "back-to-the-future",
   "the-thing",
   "the-prestige",
   "amelie",
   "city-of-god",
   "oldboy",
   "pan-s-labyrinth"]

def GENRE_WEIGHT : ℚ := 0.5
def DIRECTOR_WEIGHT : ℚ := 0.3
def DECADE_WEIGHT : ℚ := 0.2
def PROFILE_SAMPLE_LIMIT : Nat := 50
def METADATA_FAILURE_FAST_FALLBACK_THRESHOLD : Nat := 6

/-- The `score_breakdown` dict (its seven fixed keys become fields). -/
structure ScoreBreakdown where
  genres : ℚ
  directors : ℚ
  decades : ℚ
  genres_contribution : ℚ
  directors_contribution : ℚ
  decades_contribution : ℚ
  weighted_score : ℚ
deriving DecidableEq, Repr

/-- The `overlaps` dict (keys genres/decades/directors). -/
structure Overlaps where
  genres : List String
  decades : List String
  directors : List String
deriving DecidableEq, Repr

structure RecommendationItem where
  film_id : String
  title : String
  year : Option Int
  blurb : String
  why : String
  score : ℚ
  score_breakdown : ScoreBreakdown
  overlaps : Overlaps
deriving DecidableEq, Repr

structure FeatureContribution where
  feature : String
  similarity : ℚ
  weight : ℚ
  contribution : ℚ
  overlaps : List String
deriving DecidableEq, Repr

/-- `_UserProfile`. -/
structure UserProfile where
  genres : Finset String
  decades : Finset String
  directors : Finset String
deriving DecidableEq

/-! ## recommender.py: helpers -/

/-- `slug.replace("-", " ")`. -/
def dashToSpace (s : String) : String :=
  (s.toList.map (fun c => if c = '-' then ' ' else c)).asString

/-- An ASCII apostrophe, kept out of string literals. -/
def apos : String := (Char.ofNat 39).toString

def pad3 (s : String) : String :=
  if s.length < 3 then String.mk (List.replicate (3 - s.length) '0') ++ s else s

/-- The `f"{score:.3f}"` formatting of a score, idealised as exact decimal
rounding of the rational score to three places. -/
def fmt3 (q : ℚ) : String :=
  let n : Int := round (q * 1000)
  let sign := if n < 0 then "-" else ""
  let m := n.natAbs
  sign ++ toString (m / 1000) ++ "." ++ pad3 (toString (m % 1000))

/-- `_fallback_recommendation`. -/
def fallback_recommendation (slug : String) : RecommendationItem :=
  { film_id := slug
    title := pyTitle (dashToSpace slug)
    year := none
    blurb := "Fallback recommendation from curated popular pool."
    why := "Metadata was unavailable for detailed matching; this is a safe fallback pick."
    score := 0
    score_breakdown := ⟨0, 0, 0, 0, 0, 0, 0⟩
    overlaps := ⟨[], [], []⟩ }

/-- `_decade_label` (Python `//` is floor division). -/
def decade_label (year : Int) : String :=
  toString (year.fdiv 10 * 10) ++ "s"

/-- `_jaccard`. Both branches of the source are kept (the second is the
`union` emptiness re-check). -/
def jaccard (a b : Finset String) : ℚ :=
  if a = ∅ ∧ b = ∅ then 0
  else if a ∪ b = ∅ then 0
  else ((a ∩ b).card : ℚ) / (((a ∪ b).card : ℚ))

/-- Python `sorted(xs)` on a set of strings: the ascending enumeration
(implemented with the structural insertion sort so it evaluates in the
kernel). -/
def pySorted (s : Finset String) : List String :=
  Quot.liftOn s.val (fun l => l.insertionSort (· ≤ ·)) (fun a b h =>
    List.eq_of_perm_of_sorted
      (((List.perm_insertionSort _ a).trans h).trans (List.perm_insertionSort _ b).symm)
      (List.sorted_insertionSort (fun x y : String => x ≤ y) a)
      (List.sorted_insertionSort (fun x y : String => x ≤ y) b))

/-- The loop of `_build_user_profile`: accumulate genre/decade/director sets
over the bounded sample, skipping failures and stopping once the failure
counter reaches the fast-fallback threshold. -/
def buildProfileGo (provider : String → Option FilmMetadata) :
    List String → Nat → Finset String → Finset String → Finset String → UserProfile
  | [], _, g, d, dir => ⟨g, d, dir⟩
  | slug :: rest, failures, g, d, dir =>
    match provider slug with
    | none =>
      if failures + 1 ≥ METADATA_FAILURE_FAST_FALLBACK_THRESHOLD then ⟨g, d, dir⟩
      else buildProfileGo provider rest (failures + 1) g d dir
    | some meta =>
      buildProfileGo provider rest failures
        (g ∪ (orEmpty meta.genres).toFinset)
        (match meta.year with
         | some y => insert (decade_label y) d
         | none => d)
        (dir ∪ (orEmpty meta.directors).toFinset)

/-- `_build_user_profile`. -/
def build_user_profile (watched : List String)
    (provider : String → Option FilmMetadata) : UserProfile :=
  buildProfileGo provider (watched.take PROFILE_SAMPLE_LIMIT) 0 ∅ ∅ ∅

/-- The candidate decade set: singleton from the year, or empty. -/
def candDecades (year : Option Int) : Finset String :=
  match year with
  | some y => {decade_label y}
  | none => ∅

/-- `_similarity_score`: returns `(score, why, score_breakdown, overlaps)`. -/
def similarity_score (profile : UserProfile) (candidate : FilmMetadata) :
    ℚ × String × ScoreBreakdown × Overlaps :=
  let cand_genres := (orEmpty candidate.genres).toFinset
  let cand_directors := (orEmpty candidate.directors).toFinset
  let cand_decades := candDecades candidate.year
  let genre_sim := jaccard profile.genres cand_genres
  let decade_sim := jaccard profile.decades cand_decades
  let director_sim := jaccard profile.directors cand_directors
  let score :=
    GENRE_WEIGHT * genre_sim + DIRECTOR_WEIGHT * director_sim + DECADE_WEIGHT * decade_sim
  let ogenres := (pySorted (profile.genres ∩ cand_genres)).take 3
  let odecades := pySorted (profile.decades ∩ cand_decades)
  let odirectors := (pySorted (profile.directors ∩ cand_directors)).take 2
  let overlap_parts : List String :=
    (if ogenres ≠ [] then ["genres: " ++ pyJoin ", " ogenres] else [])
    ++ (if odecades ≠ [] then ["decade: " ++ pyJoin ", " odecades] else [])
    ++ (if odirectors ≠ [] then ["director: " ++ pyJoin ", " odirectors] else [])
  let breakdown : ScoreBreakdown :=
    ⟨genre_sim, director_sim, decade_sim,
     GENRE_WEIGHT * genre_sim, DIRECTOR_WEIGHT * director_sim, DECADE_WEIGHT * decade_sim,
     score⟩
  let why :=
    if overlap_parts ≠ [] then
      "Score " ++ fmt3 score ++ ". Similar to films you" ++ apos ++ "ve watched ("
        ++ pyJoin "; " overlap_parts ++ ")."
    else
      "Score " ++ fmt3 score ++ ". Popular pick; limited overlap with your watched profile."
  (score, why, breakdown, overlaps_of ogenres odecades odirectors)
where
  overlaps_of (g d dir : List String) : Overlaps := ⟨g, d, dir⟩

/-- `_has_any_overlap`. -/
def has_any_overlap (o : Overlaps) : Bool :=
  !o.genres.isEmpty || !o.directors.isEmpty || !o.decades.isEmpty

/-- `_slugify_title`. -/
def slugify_title (title : String) : String :=
  let txt := normaliseTextToken title
  let slug := (txt.toList.filterMap (fun ch =>
    if ch.isAlphanum then some ch
    else if ch = ' ' ∨ ch = '-' then some '-'
    else none)).asString
  pyJoin "-" ((splitChar '-' slug).filter (· ≠ ""))

/-- `_resolve_similar_to_slug`. -/
def resolve_similar_to_slug (title_or_slug : String) (candidates : List String)
    (provider : String → Option FilmMetadata) : Option String :=
  let token := normaliseTextToken title_or_slug
  let direct :=
    if token ∈ candidates.map strLower then
      candidates.find? (fun c => strLower c == token)
    else none
  match direct with
  | some c => some c
  | none =>
    let wanted := normaliseTextToken title_or_slug
    let byTitle := candidates.find? (fun slug =>
      match provider slug with
      | some meta =>
        match meta.title with
        | some t => decide (t ≠ "") && (normaliseTextToken t == wanted)
        | none => false
      | none => false)
    match byTitle with
    | some slug => some slug
    | none =>
      let slugified := slugify_title title_or_slug
      if candidates.contains slugified then some slugified else none

/-- The normalised nonempty tokens of a string list, as a set
(the `{_normalise_text_token(x) for x in xs if x}` comprehensions). -/
def normSet (xs : List String) : Finset String :=
  ((xs.filter (· ≠ "")).map normaliseTextToken).toFinset

/-- `_matches_constraints`. -/
def matches_constraints (meta : FilmMetadata) (constraints : RefinementConstraints)
    (similar_to : Option FilmMetadata) : Bool :=
  (if constraints.include_genres ≠ [] then
    decide (normSet (orEmpty meta.genres) ∩ normSet constraints.include_genres ≠ ∅)
   else true)
  &&
  (if constraints.year_min ≠ none ∨ constraints.year_max ≠ none then
    match meta.year with
    | none => false
    | some y =>
      (match constraints.year_min with | some lo => decide (lo ≤ y) | none => true)
      && (match constraints.year_max with | some hi => decide (y ≤ hi) | none => true)
   else true)
  &&
  (if constraints.include_countries ≠ [] then
    decide (normSet (orEmpty meta.countries) ∩ normSet constraints.include_countries ≠ ∅)
   else true)
  &&
  (match similar_to with
   | none => true
   | some sm =>
     let ref_genres := normSet (orEmpty sm.genres)
     let ref_directors := normSet (orEmpty sm.directors)
     let ref_decades := candDecades sm.year
     let cand_genres := normSet (orEmpty meta.genres)
     let cand_directors := normSet (orEmpty meta.directors)
     let cand_decades := candDecades meta.year
     decide (ref_genres ∩ cand_genres ≠ ∅ ∨ ref_directors ∩ cand_directors ≠ ∅
       ∨ ref_decades ∩ cand_decades ≠ ∅))

/-! ## recommender.py: the engine -/

/-- One collected candidate: `(pool index, score, has-overlap flag, item)`. -/
structure Cand where
  idx : Nat
  score : ℚ
  has_overlap : Bool
  item : RecommendationItem
deriving DecidableEq, Repr

/-- Python `candidates.sort(key=lambda t: (-t[1], t[0]))` compares the key
tuples: score descending, then pool index ascending. -/
def candLE (a b : Cand) : Prop :=
  b.score < a.score ∨ (a.score = b.score ∧ a.idx ≤ b.idx)

instance : DecidableRel candLE := fun a b => by unfold candLE; exact inferInstance

/-- The successful-fetch candidate record built inside the pool loop. -/
def scoredCand (profile : UserProfile) (idx : Nat) (slug : String)
    (meta : FilmMetadata) : Cand :=
  let title :=
    match meta.title with
    | some t => if t ≠ "" then t else pyTitle (dashToSpace slug)
    | none => pyTitle (dashToSpace slug)
  let r := similarity_score profile meta
  { idx := idx
    score := r.1
    has_overlap := has_any_overlap r.2.2.2
    item :=
      { film_id := slug
        title := title
        year := meta.year
        blurb := "Recommended based on overlap with your watched profile (genres/decades/directors)."
        why := r.2.1
        score := r.1
        score_breakdown := r.2.2.1
        overlaps := r.2.2.2 } }

/-- The candidate-pool loop of `recommend_for_user`: walk the enumerated pool
with a metadata-failure counter; excluded entries are skipped, failed fetches
become fallback candidates, and once failures reach the threshold all
remaining non-excluded entries are emitted as fallbacks with no further
lookups. -/
def collectCandidates (provider : String → Option FilmMetadata)
    (constraints : RefinementConstraints) (similar_meta : Option FilmMetadata)
    (profile : UserProfile) (exclude : Finset String) :
    List (Nat × String) → Nat → List Cand
  | [], _ => []
  | (idx, slug) :: rest, failures =>
    if slug ∈ exclude then
      collectCandidates provider constraints similar_meta profile exclude rest failures
    else
      match provider slug with
      | none =>
        let c : Cand := ⟨idx, 0, false, fallback_recommendation slug⟩
        if failures + 1 ≥ METADATA_FAILURE_FAST_FALLBACK_THRESHOLD then
          c :: (rest.filter (fun p => p.2 ∉ exclude)).map
            (fun p => ⟨p.1, 0, false, fallback_recommendation p.2⟩)
        else
          c :: collectCandidates provider constraints similar_meta profile exclude rest (failures + 1)
      | some meta =>
        if matches_constraints meta constraints similar_meta then
          scoredCand profile idx slug meta
            :: collectCandidates provider constraints similar_meta profile exclude rest failures
        else
          collectCandidates provider constraints similar_meta profile exclude rest failures

/-- The slugs actually passed to the metadata provider by the pool loop, in
order (a ghost trace of the same recursion as `collectCandidates`, used to
state that the fast-fallback path performs no further lookups). -/
def collectLookups (provider : String → Option FilmMetadata)
    (constraints : RefinementConstraints) (similar_meta : Option FilmMetadata)
    (profile : UserProfile) (exclude : Finset String) :
    List (Nat × String) → Nat → List String
  | [], _ => []
  | (_, slug) :: rest, failures =>
    if slug ∈ exclude then
      collectLookups provider constraints similar_meta profile exclude rest failures
    else
      match provider slug with
      | none =>
        if failures + 1 ≥ METADATA_FAILURE_FAST_FALLBACK_THRESHOLD then
          [slug]
        else
          slug :: collectLookups provider constraints similar_meta profile exclude rest (failures + 1)
      | some _ =>
        slug :: collectLookups provider constraints similar_meta profile exclude rest failures

/-- `candidates.sort(key=lambda t: (-t[1], t[0]))` — a stable sort on the
key. Python's sort is stable; the insertion sort used here is stable as well,
and in every pipeline of the engine the keys `(score, idx)` are pairwise
distinct (pool indices are distinct), so the sorted output is the unique
sorted permutation either way. -/
def sortCands (l : List Cand) : List Cand := l.insertionSort candLE

/-- `exclude = set(watched) | set(watchlist)`, then `exclude |= set(exclude_slugs)`
when the caller-supplied set is truthy. -/
def baseExclude (lists : IngestedLists) (exclude_slugs : Finset String) : Finset String :=
  let exclude := lists.watched.toFinset ∪ lists.watchlist.toFinset
  if exclude_slugs ≠ ∅ then exclude ∪ exclude_slugs else exclude

/-- The prompt-derived `k` override: `if constraints.k is not None: k = constraints.k`. -/
def effectiveK (constraints : RefinementConstraints) (k : Int) : Int :=
  match constraints.k with
  | some kk => kk
  | none => k

/-- The similar-to resolution block of `recommend_for_user`: resolves the
parsed title against watched ∪ watchlist ∪ pool, keeps its metadata as the
reference, and adds the resolved slug to the exclusion set on success;
the reference is dropped silently when its metadata fetch fails. Returns
`(similar_meta, exclude)`. -/
def resolveSimilar (provider : String → Option FilmMetadata)
    (constraints : RefinementConstraints) (lists : IngestedLists)
    (exclude : Finset String) : Option FilmMetadata × Finset String :=
  match constraints.similar_to_title with
  | some t =>
    if t ≠ "" then
      let search_space := pyDedup (lists.watched ++ lists.watchlist ++ POPULAR_FILM_SLUGS)
      match resolve_similar_to_slug t search_space provider with
      | some resolved =>
        if resolved ≠ "" then
          match provider resolved with
          | some m => (some m, insert resolved exclude)
          | none => (none, exclude)
        else (none, exclude)
      | none => (none, exclude)
    else (none, exclude)
  | none => (none, exclude)

/-- `profile_is_empty = not (profile.genres or profile.decades or profile.directors)`. -/
def profileIsEmpty (p : UserProfile) : Bool :=
  decide (p.genres = ∅ ∧ p.decades = ∅ ∧ p.directors = ∅)

/-- The final selection of `recommend_for_user`: empty profile takes the
first `k` sorted candidates; otherwise overlap candidates are preferred and
non-overlap candidates fill up the remainder, truncated to `k`. -/
def selectItems (profileEmpty : Bool) (k : Int) (sorted : List Cand) :
    List RecommendationItem :=
  if profileEmpty then (sorted.take k.toNat).map (·.item)
  else
    let overlap_first := (sorted.filter (·.has_overlap)).map (·.item)
    if k ≤ (overlap_first.length : Int) then overlap_first.take k.toNat
    else
      (overlap_first ++ (sorted.filter (fun c => !c.has_overlap)).map (·.item)).take k.toNat

/-- `recommend_for_user`. The external collaborators (ingested-lists store and
metadata provider) are injected; `data_dir` is part of those collaborators and
does not appear. -/
def recommend_for_user (listsLookup : String → Option IngestedLists)
    (provider : String → Option FilmMetadata) (username : String) (k : Int)
    (prompt : Option String) (exclude_slugs : Finset String) :
    Except RecError (List RecommendationItem) :=
  if username = "" then .error (.validation "username is required")
  else if k < 1 then .error (.validation "k must be >= 1")
  else
    let constraints := (parse_refinement_prompt prompt).constraints
    let k := effectiveK constraints k
    match listsLookup username with
    | none => .error .notFound
    | some lists =>
      let resolvedPair := resolveSimilar provider constraints lists (baseExclude lists exclude_slugs)
      let profile := build_user_profile lists.watched provider
      let sorted := sortCands (collectCandidates provider constraints resolvedPair.1
        profile resolvedPair.2 POPULAR_FILM_SLUGS.enum 0)
      .ok (selectItems (profileIsEmpty profile) k sorted)

/-- The key comparison of `contributions.sort(key=lambda item:
(-item.contribution, item.feature))`: contribution descending, feature name
ascending. -/
def contribLE (a b : FeatureContribution) : Prop :=
  b.contribution < a.contribution
    ∨ (a.contribution = b.contribution ∧ a.feature ≤ b.feature)

instance : DecidableRel contribLE := fun a b => by unfold contribLE; exact inferInstance

/-- The three-entry decomposition built by `top_feature_contributions`
before sorting. -/
def featureDecomposition (profile : UserProfile) (candidate : FilmMetadata) :
    List FeatureContribution :=
  let r := similarity_score profile candidate
  let breakdown := r.2.2.1
  let overlaps := r.2.2.2
  [⟨"genres", breakdown.genres, GENRE_WEIGHT, breakdown.genres_contribution, overlaps.genres⟩,
   ⟨"directors", breakdown.directors, DIRECTOR_WEIGHT, breakdown.directors_contribution,
    overlaps.directors⟩,
   ⟨"decades", breakdown.decades, DECADE_WEIGHT, breakdown.decades_contribution,
    overlaps.decades⟩]

/-- `top_feature_contributions`. -/
def top_feature_contributions (listsLookup : String → Option IngestedLists)
    (provider : String → Option FilmMetadata) (username film_id : String)
    (top_n : Int) : Except RecError (ℚ × List FeatureContribution) :=
  if username = "" then .error (.validation "username is required")
  else if film_id = "" then .error (.validation "film_id is required")
  else if top_n < 1 then .error (.validation "top_n must be >= 1")
  else
    match listsLookup username with
    | none => .error .notFound
    | some lists =>
      let profile := build_user_profile lists.watched provider
      match provider film_id with
      | none => .error .metadataError
      | some candidate =>
        let score := (similarity_score profile candidate).1
        let contributions := featureDecomposition profile candidate
        .ok (score, (contributions.insertionSort contribLE).take top_n.toNat)

/-! ## Spec-modelled comparison definition (whole-word intent test) -/

/-- The maximal word-character runs of a string. -/
def wordRuns (s : String) : List String :=
  go s.toList []
where
  go : List Char → List Char → List String
    | [], acc => if acc.isEmpty then [] else [acc.reverse.asString]
    | c :: rest, acc =>
      if isWordChar c then go rest (c :: acc)
      else if acc.isEmpty then go rest [] else acc.reverse.asString :: go rest []

/-- Modelled from the claim wording of C8: the lowercased prompt contains
"more" as a whole word, i.e. as one of its maximal word-character runs. -/
def containsWholeWordMore (s : String) : Bool :=
  (wordRuns (strLower s)).contains "more"

/-! ## Concrete collaborator instances used by witnesses and counterexamples -/

def exLists : IngestedLists := ⟨["f1"], ["w1"]⟩

def exLookup : String → Option IngestedLists :=
  fun u => if u = "alice" then some exLists else none

/-- A provider whose every fetch fails. -/
def allFail : String → Option FilmMetadata := fun _ => none

def gfMeta : FilmMetadata :=
  { slug := "the-godfather", title := some "The Godfather", year := some 1972,
    genres := some ["Crime", "Drama"], directors := some ["Francis Ford Coppola"] }

def f1Meta : FilmMetadata :=
  { slug := "f1", title := some "F One", year := some 1974,
    genres := some ["Crime"], directors := some ["Francis Ford Coppola"] }

/-- Provider for the evaluator witness: the watched film and the first pool
entry resolve, everything else fails. -/
def evalProv : String → Option FilmMetadata :=
  fun s => if s = "f1" then some f1Meta else if s = "the-godfather" then some gfMeta else none

/-- Provider for the C9 concrete run: the first pool entry fails, the watched
film fails (so the profile is empty), and every other film resolves with no
genre/director/country data. -/
def c9prov : String → Option FilmMetadata :=
  fun s =>
    if s = "the-godfather" ∨ s = "f1" then none
    else some { slug := s, title := some s, year := some 2000 }

/-- Provider for the C5 counterexample: the watched film fails (empty
profile), the first pool entry carries only genre "crime", every other pool
entry carries genre "horror". -/
def c5prov : String → Option FilmMetadata :=
  fun s =>
    if s = "f1" then none
    else if s = "the-godfather" then
      some { slug := s, title := some "The Godfather", year := some 1972,
             genres := some ["crime"] }
    else some { slug := s, title := some s, year := some 2000, genres := some ["horror"] }

/-- The first two fallback items of the all-failing run (C1 witness). -/
def itemsC1 : List RecommendationItem :=
  [fallback_recommendation "the-godfather", fallback_recommendation "the-godfather-part-ii"]

/-! # Theorems

First a layer of shared lemmas about the embedded definitions, then one
theorem per claim (with witnesses and counterexamples where required). -/

theorem jaccard_nonneg (a b : Finset String) : 0 ≤ jaccard a b := by
  unfold jaccard
  split_ifs
  · exact le_refl 0
  · exact le_refl 0
  · positivity

theorem jaccard_le_one (a b : Finset String) : jaccard a b ≤ 1 := by
  unfold jaccard
  split_ifs with h1 h2
  · norm_num
  · norm_num
  · have hpos : 0 < ((a ∪ b).card : ℚ) := by
      have hne : (a ∪ b).Nonempty := Finset.nonempty_iff_ne_empty.mpr h2
      exact_mod_cast Finset.card_pos.mpr hne
    rw [div_le_one hpos]
    exact_mod_cast Finset.card_le_card Finset.inter_subset_union

theorem jaccard_comm (a b : Finset String) : jaccard a b = jaccard b a := by
  unfold jaccard
  rw [Finset.inter_comm b a, Finset.union_comm b a]
  by_cases h1 : a = ∅ ∧ b = ∅
  · have h2 : b = ∅ ∧ a = ∅ := ⟨h1.2, h1.1⟩
    simp [h1, h2]
  · have h2 : ¬(b = ∅ ∧ a = ∅) := fun h => h1 ⟨h.2, h.1⟩
    simp [h1, h2]

theorem jaccard_empty_left (b : Finset String) : jaccard ∅ b = 0 := by
  unfold jaccard
  rcases eq_or_ne b ∅ with hb | hb
  · simp [hb]
  · simp [hb, Finset.empty_inter]

/-- C6: `_jaccard` of two empty sets is 0.0 (not 1.0, not undefined), and for
all finite string sets it is symmetric and bounded in [0, 1]. -/
theorem C6_jaccard_empty_symm_bounded :
    jaccard ∅ ∅ = 0 ∧
      ∀ a b : Finset String,
        jaccard a b = jaccard b a ∧ 0 ≤ jaccard a b ∧ jaccard a b ≤ 1 := by
  refine ⟨by simp [jaccard], fun a b => ⟨jaccard_comm a b, jaccard_nonneg a b, jaccard_le_one a b⟩⟩

/-- C3: `_similarity_score` returns exactly
`0.5·J(genres) + 0.3·J(directors) + 0.2·J(decades)` where each `J` is the
Jaccard index of the profile set against the candidate set (the candidate
decade set being the singleton from its year, or empty), and the score lies
in [0, 1]. -/
theorem C3_similarity_score_formula_and_bounds :
    ∀ (profile : UserProfile) (candidate : FilmMetadata),
      (similarity_score profile candidate).1 =
        0.5 * jaccard profile.genres (orEmpty candidate.genres).toFinset
          + 0.3 * jaccard profile.directors (orEmpty candidate.directors).toFinset
          + 0.2 * jaccard profile.decades (candDecades candidate.year)
        ∧ 0 ≤ (similarity_score profile candidate).1
        ∧ (similarity_score profile candidate).1 ≤ 1 := by
  intro profile candidate
  have hform : (similarity_score profile candidate).1 =
      0.5 * jaccard profile.genres (orEmpty candidate.genres).toFinset
        + 0.3 * jaccard profile.directors (orEmpty candidate.directors).toFinset
        + 0.2 * jaccard profile.decades (candDecades candidate.year) := rfl
  refine ⟨hform, ?_, ?_⟩
  · rw [hform]
    have h1 := jaccard_nonneg profile.genres (orEmpty candidate.genres).toFinset
    have h2 := jaccard_nonneg profile.directors (orEmpty candidate.directors).toFinset
    have h3 := jaccard_nonneg profile.decades (candDecades candidate.year)
    nlinarith
  · rw [hform]
    have h1 := jaccard_le_one profile.genres (orEmpty candidate.genres).toFinset
    have h2 := jaccard_le_one profile.directors (orEmpty candidate.directors).toFinset
    have h3 := jaccard_le_one profile.decades (candDecades candidate.year)
    have h4 := jaccard_nonneg profile.genres (orEmpty candidate.genres).toFinset
    have h5 := jaccard_nonneg profile.directors (orEmpty candidate.directors).toFinset
    have h6 := jaccard_nonneg profile.decades (candDecades candidate.year)
    nlinarith

/-- C8 counterexample: the source tests substring containment
(`"more" in lowered`), not whole-word containment. The prompt "smores"
contains "more" only inside a longer word, yet the parsed intent is `more`. -/
theorem C8_counterexample_substring_not_token :
    (parse_refinement_prompt (some "smores")).intent = RefinementIntent.more
      ∧ containsWholeWordMore "smores" = false := by
  exact ⟨by decide, by decide⟩

/-- C8 (amended): for a non-empty prompt the intent is `more` iff the
lowercased prompt contains "more" as a substring (not necessarily a whole
word), else `refine`; an empty or absent prompt yields intent `refine` with
all constraints empty. -/
theorem C8_amended_intent_substring :
    ∀ prompt : Option String,
      (pyStrip (prompt.getD "") ≠ "" →
        ((parse_refinement_prompt prompt).intent = RefinementIntent.more
          ↔ containsSub (strLower (pyStrip (prompt.getD ""))) "more" = true))
      ∧ (pyStrip (prompt.getD "") = "" →
          (parse_refinement_prompt prompt).intent = RefinementIntent.refine
            ∧ (parse_refinement_prompt prompt).constraints = {}) := by
  intro prompt
  constructor
  · intro hne
    cases h : containsSub (strLower (pyStrip (prompt.getD ""))) "more" with
    | true => simp [parse_refinement_prompt, hne, h]
    | false => simp [parse_refinement_prompt, hne, h]
  · intro he
    simp [parse_refinement_prompt, he]

theorem C8_amended_witness :
    (parse_refinement_prompt (some "5 more")).intent = RefinementIntent.more
      ∧ (parse_refinement_prompt none).intent = RefinementIntent.refine :=
  ⟨((C8_amended_intent_substring (some "5 more")).1 (by decide)).mpr (by decide),
   ((C8_amended_intent_substring none).2 (by decide)).1⟩

theorem parseK_range (s : String) (kk : Int) (h : parseK s = some kk) :
    1 ≤ kk ∧ kk ≤ 20 := by
  unfold parseK at h
  cases hm : parseKMatch s with
  | none => rw [hm] at h; exact absurd h (by simp)
  | some k =>
    rw [hm] at h
    simp only [] at h
    split_ifs at h with hcond
    · cases h
      exact ⟨by exact_mod_cast hcond.1, by exact_mod_cast hcond.2⟩

/-- C10: the caller-supplied `k` is validated (error when `k < 1`) before the
prompt-derived override is applied, so a call with `k < 1` fails even when the
prompt carries a valid count; and any prompt-derived `k` is always in [1, 20]. -/
theorem C10_k_validated_before_override :
    ∀ (L : String → Option IngestedLists) (P : String → Option FilmMetadata)
      (username : String) (k : Int) (prompt : Option String) (ex : Finset String),
      (username ≠ "" → k < 1 →
        recommend_for_user L P username k prompt ex
          = .error (.validation "k must be >= 1"))
      ∧ (∀ kk : Int, (parse_refinement_prompt prompt).constraints.k = some kk →
          1 ≤ kk ∧ kk ≤ 20) := by
  intro L P username k prompt ex
  constructor
  · intro hu hk
    simp [recommend_for_user, hu, hk]
  · intro kk hkk
    by_cases he : pyStrip (prompt.getD "") = ""
    · simp [parse_refinement_prompt, he] at hkk
    · simp [parse_refinement_prompt, he] at hkk
      exact parseK_range _ _ hkk

/-! ## Comparator lemmas -/

theorem candLE_trans : ∀ a b c : Cand, candLE a b → candLE b c → candLE a c := by
  intro a b c h1 h2
  rcases h1 with h1 | ⟨e1, l1⟩ <;> rcases h2 with h2 | ⟨e2, l2⟩
  · exact Or.inl (lt_trans h2 h1)
  · exact Or.inl (e2 ▸ h1)
  · exact Or.inl (lt_of_lt_of_eq h2 e1.symm)
  · exact Or.inr ⟨e1.trans e2, le_trans l1 l2⟩

theorem candLE_total : ∀ a b : Cand, candLE a b ∨ candLE b a := by
  intro a b
  rcases lt_trichotomy a.score b.score with h | h | h
  · exact Or.inr (Or.inl h)
  · rcases le_total a.idx b.idx with hi | hi
    · exact Or.inl (Or.inr ⟨h, hi⟩)
    · exact Or.inr (Or.inr ⟨h.symm, hi⟩)
  · exact Or.inl (Or.inl h)

instance : IsTrans Cand candLE := ⟨candLE_trans⟩

instance : IsTotal Cand candLE := ⟨candLE_total⟩

theorem contribLE_trans :
    ∀ a b c : FeatureContribution, contribLE a b → contribLE b c → contribLE a c := by
  intro a b c h1 h2
  rcases h1 with h1 | ⟨e1, l1⟩ <;> rcases h2 with h2 | ⟨e2, l2⟩
  · exact Or.inl (lt_trans h2 h1)
  · exact Or.inl (e2 ▸ h1)
  · exact Or.inl (lt_of_lt_of_eq h2 e1.symm)
  · exact Or.inr ⟨e1.trans e2, le_trans l1 l2⟩

theorem contribLE_total :
    ∀ a b : FeatureContribution, contribLE a b ∨ contribLE b a := by
  intro a b
  rcases lt_trichotomy a.contribution b.contribution with h | h | h
  · exact Or.inr (Or.inl h)
  · rcases le_total a.feature b.feature with hi | hi
    · exact Or.inl (Or.inr ⟨h, hi⟩)
    · exact Or.inr (Or.inr ⟨h.symm, hi⟩)
  · exact Or.inl (Or.inl h)

instance : IsTrans FeatureContribution contribLE := ⟨contribLE_trans⟩

instance : IsTotal FeatureContribution contribLE := ⟨contribLE_total⟩

/-! ## Candidate-pool loop lemmas -/

theorem scoredCand_film_id (prof : UserProfile) (idx : Nat) (slug : String)
    (meta : FilmMetadata) : (scoredCand prof idx slug meta).item.film_id = slug := rfl

theorem collect_film_id_not_excluded (P : String → Option FilmMetadata)
    (cons : RefinementConstraints) (sim : Option FilmMetadata) (prof : UserProfile)
    (ex : Finset String) :
    ∀ (L : List (Nat × String)) (f : Nat) (c : Cand),
      c ∈ collectCandidates P cons sim prof ex L f → c.item.film_id ∉ ex := by
  intro L
  induction L with
  | nil => intro f c hc; simp [collectCandidates] at hc
  | cons hd tl ih =>
    rcases hd with ⟨idx, slug⟩
    intro f c hc
    rw [collectCandidates] at hc
    by_cases hex : slug ∈ ex
    · rw [if_pos hex] at hc
      exact ih f c hc
    · rw [if_neg hex] at hc
      cases hP : P slug with
      | none =>
        rw [hP] at hc
        dsimp only at hc
        split_ifs at hc with hth
        · rcases List.mem_cons.mp hc with rfl | hmem
          · exact hex
          · obtain ⟨p, hp, rfl⟩ := List.mem_map.mp hmem
            simp only [List.mem_filter, decide_eq_true_eq] at hp
            exact hp.2
        · rcases List.mem_cons.mp hc with rfl | hmem
          · exact hex
          · exact ih (f + 1) c hmem
      | some meta =>
        rw [hP] at hc
        dsimp only at hc
        split_ifs at hc with hm
        · rcases List.mem_cons.mp hc with rfl | hmem
          · exact hex
          · exact ih f c hmem
        · exact ih f c hc

theorem collect_idx_mem (P : String → Option FilmMetadata)
    (cons : RefinementConstraints) (sim : Option FilmMetadata) (prof : UserProfile)
    (ex : Finset String) :
    ∀ (L : List (Nat × String)) (f : Nat) (c : Cand),
      c ∈ collectCandidates P cons sim prof ex L f → c.idx ∈ L.map Prod.fst := by
  intro L
  induction L with
  | nil => intro f c hc; simp [collectCandidates] at hc
  | cons hd tl ih =>
    rcases hd with ⟨idx, slug⟩
    intro f c hc
    rw [collectCandidates] at hc
    by_cases hex : slug ∈ ex
    · rw [if_pos hex] at hc
      exact List.mem_cons_of_mem _ (ih f c hc)
    · rw [if_neg hex] at hc
      cases hP : P slug with
      | none =>
        rw [hP] at hc
        dsimp only at hc
        split_ifs at hc with hth
        · rcases List.mem_cons.mp hc with rfl | hmem
          · exact List.mem_cons_self _ _
          · obtain ⟨p, hp, rfl⟩ := List.mem_map.mp hmem
            exact List.mem_cons_of_mem _
              (List.mem_map.mpr ⟨p, List.mem_of_mem_filter hp, rfl⟩)
        · rcases List.mem_cons.mp hc with rfl | hmem
          · exact List.mem_cons_self _ _
          · exact List.mem_cons_of_mem _ (ih (f + 1) c hmem)
      | some meta =>
        rw [hP] at hc
        dsimp only at hc
        split_ifs at hc with hm
        · rcases List.mem_cons.mp hc with rfl | hmem
          · exact List.mem_cons_self _ _
          · exact List.mem_cons_of_mem _ (ih f c hmem)
        · exact List.mem_cons_of_mem _ (ih f c hc)

theorem collect_idx_pairwise (P : String → Option FilmMetadata)
    (cons : RefinementConstraints) (sim : Option FilmMetadata) (prof : UserProfile)
    (ex : Finset String) :
    ∀ (L : List (Nat × String)) (f : Nat),
      L.Pairwise (fun p q => p.1 < q.1) →
      (collectCandidates P cons sim prof ex L f).Pairwise (fun a b => a.idx < b.idx) := by
  intro L
  induction L with
  | nil => intro f _; simp [collectCandidates]
  | cons hd tl ih =>
    rcases hd with ⟨idx, slug⟩
    intro f hpw
    have hhd : ∀ q ∈ tl, idx < q.1 := (List.pairwise_cons.mp hpw).1
    have htl : tl.Pairwise (fun p q => p.1 < q.1) := (List.pairwise_cons.mp hpw).2
    have hbound : ∀ c ∈ collectCandidates P cons sim prof ex tl (f + 1), idx < c.idx := by
      intro c hc
      obtain ⟨p, hp, hpe⟩ := List.mem_map.mp (collect_idx_mem P cons sim prof ex tl (f + 1) c hc)
      exact hpe ▸ hhd p hp
    have hbound0 : ∀ c ∈ collectCandidates P cons sim prof ex tl f, idx < c.idx := by
      intro c hc
      obtain ⟨p, hp, hpe⟩ := List.mem_map.mp (collect_idx_mem P cons sim prof ex tl f c hc)
      exact hpe ▸ hhd p hp
    rw [collectCandidates]
    by_cases hex : slug ∈ ex
    · rw [if_pos hex]
      exact ih f htl
    · rw [if_neg hex]
      cases hP : P slug with
      | none =>
        dsimp only
        split_ifs with hth
        · refine List.pairwise_cons.mpr ⟨?_, ?_⟩
          · intro b hb
            obtain ⟨p, hp, rfl⟩ := List.mem_map.mp hb
            exact hhd p (List.mem_of_mem_filter hp)
          · rw [List.pairwise_map]
            exact (htl.filter _).imp (fun h => h)
        · refine List.pairwise_cons.mpr ⟨?_, ih (f + 1) htl⟩
          intro b hb
          exact hbound b hb
      | some meta =>
        dsimp only
        split_ifs with hm
        · refine List.pairwise_cons.mpr ⟨?_, ih f htl⟩
          intro b hb
          exact hbound0 b hb
        · exact ih f htl

theorem enum_pairwise (l : List String) :
    l.enum.Pairwise (fun p q => p.1 < q.1) := by
  have h := List.pairwise_lt_range l.length
  rw [← List.enum_map_fst l] at h
  exact (List.pairwise_map.mp h).imp (fun h => h)

theorem sortCands_perm (l : List Cand) : List.Perm (sortCands l) l :=
  List.perm_insertionSort candLE l

theorem sortCands_sorted (l : List Cand) : (sortCands l).Pairwise candLE :=
  List.sorted_insertionSort candLE l

theorem sortCands_strict (l : List Cand)
    (h : l.Pairwise (fun a b => a.idx < b.idx)) :
    (sortCands l).Pairwise
      (fun a b => b.score < a.score ∨ (a.score = b.score ∧ a.idx < b.idx)) := by
  have hnd : (l.map (fun c => c.idx)).Nodup :=
    List.pairwise_map.mpr (h.imp (fun hlt => Nat.ne_of_lt hlt))
  have hnd2 : ((sortCands l).map (fun c => c.idx)).Nodup :=
    ((sortCands_perm l).map (fun c => c.idx)).symm.nodup hnd
  have hne : (sortCands l).Pairwise (fun a b => a.idx ≠ b.idx) :=
    List.pairwise_map.mp hnd2
  have hle := sortCands_sorted l
  refine (hle.and hne).imp ?_
  rintro a b ⟨hab, hne2⟩
  rcases hab with hlt | ⟨heq, hlez⟩
  · exact Or.inl hlt
  · exact Or.inr ⟨heq, lt_of_le_of_ne hlez hne2⟩

/-! ## Selection and unfolding lemmas -/

theorem selectItems_mem (pe : Bool) (k : Int) (sorted : List Cand)
    (it : RecommendationItem) (hit : it ∈ selectItems pe k sorted) :
    ∃ c ∈ sorted, it = c.item := by
  simp only [selectItems] at hit
  split_ifs at hit with hpe hk
  · obtain ⟨c, hc, rfl⟩ := List.mem_map.mp hit
    exact ⟨c, List.take_subset _ _ hc, rfl⟩
  · obtain ⟨c, hc, rfl⟩ := List.mem_map.mp (List.take_subset _ _ hit)
    exact ⟨c, List.mem_of_mem_filter hc, rfl⟩
  · rcases List.mem_append.mp (List.take_subset _ _ hit) with hmem | hmem
    · obtain ⟨c, hc, rfl⟩ := List.mem_map.mp hmem
      exact ⟨c, List.mem_of_mem_filter hc, rfl⟩
    · obtain ⟨c, hc, rfl⟩ := List.mem_map.mp hmem
      exact ⟨c, List.mem_of_mem_filter hc, rfl⟩

theorem recommend_ok_eq (L : String → Option IngestedLists)
    (P : String → Option FilmMetadata) (username : String) (k : Int)
    (prompt : Option String) (exS : Finset String) (lists : IngestedLists)
    (hu : username ≠ "") (hk : ¬ k < 1) (hl : L username = some lists) :
    recommend_for_user L P username k prompt exS =
      .ok (selectItems (profileIsEmpty (build_user_profile lists.watched P))
        (effectiveK (parse_refinement_prompt prompt).constraints k)
        (sortCands (collectCandidates P (parse_refinement_prompt prompt).constraints
          (resolveSimilar P (parse_refinement_prompt prompt).constraints lists
            (baseExclude lists exS)).1
          (build_user_profile lists.watched P)
          (resolveSimilar P (parse_refinement_prompt prompt).constraints lists
            (baseExclude lists exS)).2
          POPULAR_FILM_SLUGS.enum 0))) := by
  simp [recommend_for_user, hu, hk, hl]

theorem baseExclude_mem_watched (lists : IngestedLists) (exS : Finset String)
    (s : String) (hs : s ∈ lists.watched) : s ∈ baseExclude lists exS := by
  unfold baseExclude
  split_ifs
  · exact Finset.mem_union_left _ (Finset.mem_union_left _ (List.mem_toFinset.mpr hs))
  · exact Finset.mem_union_left _ (List.mem_toFinset.mpr hs)

theorem baseExclude_mem_watchlist (lists : IngestedLists) (exS : Finset String)
    (s : String) (hs : s ∈ lists.watchlist) : s ∈ baseExclude lists exS := by
  unfold baseExclude
  split_ifs
  · exact Finset.mem_union_left _ (Finset.mem_union_right _ (List.mem_toFinset.mpr hs))
  · exact Finset.mem_union_right _ (List.mem_toFinset.mpr hs)

theorem baseExclude_mem_caller (lists : IngestedLists) (exS : Finset String)
    (s : String) (hs : s ∈ exS) : s ∈ baseExclude lists exS := by
  unfold baseExclude
  split_ifs with h
  · exact Finset.mem_union_right _ hs
  · rw [not_ne_iff] at h
    exact absurd (h ▸ hs) (Finset.not_mem_empty s)

theorem resolveSimilar_exclude_superset (P : String → Option FilmMetadata)
    (cons : RefinementConstraints) (lists : IngestedLists) (ex : Finset String) :
    ex ⊆ (resolveSimilar P cons lists ex).2 := by
  unfold resolveSimilar
  rcases cons.similar_to_title with _ | t
  · exact Finset.Subset.refl ex
  · dsimp only
    split_ifs with h1
    · rcases resolve_similar_to_slug t
        (pyDedup (lists.watched ++ lists.watchlist ++ POPULAR_FILM_SLUGS)) P with _ | r
      · exact Finset.Subset.refl ex
      · dsimp only
        split_ifs with h2
        · rcases P r with _ | m
          · exact Finset.Subset.refl ex
          · exact Finset.subset_insert r ex
        · exact Finset.Subset.refl ex
    · exact Finset.Subset.refl ex

/-- C1: for every user with ingested data, every k, prompt and caller-supplied
exclusion set, no returned item identifies a film in the watched list, the
watchlist, or the caller-supplied exclusions. -/
theorem C1_no_excluded_in_result :
    ∀ (L : String → Option IngestedLists) (P : String → Option FilmMetadata)
      (username : String) (k : Int) (prompt : Option String) (exS : Finset String)
      (lists : IngestedLists) (items : List RecommendationItem),
      L username = some lists →
      recommend_for_user L P username k prompt exS = .ok items →
      ∀ it ∈ items,
        it.film_id ∉ lists.watched ∧ it.film_id ∉ lists.watchlist ∧ it.film_id ∉ exS := by
  intro L P username k prompt exS lists items hl hok it hit
  by_cases hu : username = ""
  · rw [recommend_for_user, if_pos hu] at hok
    cases hok
  by_cases hk : k < 1
  · rw [recommend_for_user, if_neg hu, if_pos hk] at hok
    cases hok
  rw [recommend_ok_eq L P username k prompt exS lists hu hk hl] at hok
  injection hok with hok
  subst hok
  obtain ⟨c, hc, rfl⟩ := selectItems_mem _ _ _ it hit
  have hc2 := (sortCands_perm _).subset hc
  have hnotin := collect_film_id_not_excluded P
    (parse_refinement_prompt prompt).constraints
    (resolveSimilar P (parse_refinement_prompt prompt).constraints lists
      (baseExclude lists exS)).1
    (build_user_profile lists.watched P)
    (resolveSimilar P (parse_refinement_prompt prompt).constraints lists
      (baseExclude lists exS)).2
    POPULAR_FILM_SLUGS.enum 0 c hc2
  have hbase : c.item.film_id ∉ baseExclude lists exS := by
    intro hmem
    exact hnotin (resolveSimilar_exclude_superset P
      (parse_refinement_prompt prompt).constraints lists (baseExclude lists exS) hmem)
  refine ⟨fun h => hbase (baseExclude_mem_watched lists exS _ h),
    fun h => hbase (baseExclude_mem_watchlist lists exS _ h),
    fun h => hbase (baseExclude_mem_caller lists exS _ h)⟩

theorem C1_witness :
    (fallback_recommendation "the-godfather").film_id ∉ exLists.watched
      ∧ (fallback_recommendation "the-godfather").film_id ∉ exLists.watchlist
      ∧ (fallback_recommendation "the-godfather").film_id ∉ (∅ : Finset String) :=
  C1_no_excluded_in_result exLookup allFail "alice" 2 none ∅ exLists itemsC1
    rfl (by with_unfolding_all rfl) (fallback_recommendation "the-godfather")
    (by with_unfolding_all decide)

/-- C2: with a pure metadata provider and a fixed store, two calls with
identical inputs return identical ordered lists, and the sorted candidate
list of a pass is ordered by score descending with pool index ascending as
the tie-break. -/
theorem C2_deterministic_and_sorted :
    (∀ (L1 L2 : String → Option IngestedLists) (P1 P2 : String → Option FilmMetadata)
      (username : String) (k : Int) (prompt : Option String) (exS : Finset String),
      (∀ u, L1 u = L2 u) → (∀ s, P1 s = P2 s) →
      recommend_for_user L1 P1 username k prompt exS
        = recommend_for_user L2 P2 username k prompt exS)
    ∧ (∀ (P : String → Option FilmMetadata) (cons : RefinementConstraints)
        (sim : Option FilmMetadata) (prof : UserProfile) (ex : Finset String),
        (sortCands (collectCandidates P cons sim prof ex POPULAR_FILM_SLUGS.enum 0)).Pairwise
          (fun a b => b.score < a.score ∨ (a.score = b.score ∧ a.idx < b.idx))) := by
  constructor
  · intro L1 L2 P1 P2 username k prompt exS hL hP
    have hL2 : L1 = L2 := funext hL
    have hP2 : P1 = P2 := funext hP
    rw [hL2, hP2]
  · intro P cons sim prof ex
    exact sortCands_strict _
      (collect_idx_pairwise P cons sim prof ex POPULAR_FILM_SLUGS.enum 0
        (enum_pairwise POPULAR_FILM_SLUGS))

theorem C2_witness :
    recommend_for_user exLookup allFail "alice" 2 none ∅
      = recommend_for_user exLookup allFail "alice" 2 none ∅ :=
  (C2_deterministic_and_sorted).1 exLookup exLookup allFail allFail "alice" 2 none ∅
    (fun _ => rfl) (fun _ => rfl)

/-- C4 counterexample: with every fetch failing and the caller excluding
"goodfellas" (pool index 6), the pass reaches the failure threshold at pool
index 5 — the lookup trace stops at "the-shawshank-redemption" — yet the
excluded remaining entry "goodfellas" is *not* emitted as a fallback item, so
fallback items are not emitted for **all** remaining unvisited pool entries. -/
theorem C4_counterexample_excluded_remainder :
    ("goodfellas" ∈ POPULAR_FILM_SLUGS)
    ∧ collectLookups allFail {} none (build_user_profile exLists.watched allFail)
        (baseExclude exLists {"goodfellas"}) POPULAR_FILM_SLUGS.enum 0
      = ["the-godfather", "the-godfather-part-ii", "the-dark-knight", "pulp-fiction",
         "fight-club", "the-shawshank-redemption"]
    ∧ (recommend_for_user exLookup allFail "alice" 40 none {"goodfellas"}).map
        (List.map (fun it => it.film_id))
      = .ok (POPULAR_FILM_SLUGS.filter (fun s => s ≠ "goodfellas")) := by
  refine ⟨by decide, by with_unfolding_all rfl, by with_unfolding_all rfl⟩

/-- C4 (amended): during one pass, when a metadata-fetch failure makes the
failure count reach the fast-fallback threshold of 6, fallback items with
score 0.0 are emitted for the failing entry and for all remaining unvisited
pool entries **that are not in the exclusion set**, preserving original pool
order, and no further metadata lookups occur in that pass. -/
theorem C4_amended_fast_fallback :
    ∀ (P : String → Option FilmMetadata) (cons : RefinementConstraints)
      (sim : Option FilmMetadata) (prof : UserProfile) (ex : Finset String)
      (idx : Nat) (slug : String) (rest : List (Nat × String)) (failures : Nat),
      slug ∉ ex → P slug = none →
      METADATA_FAILURE_FAST_FALLBACK_THRESHOLD ≤ failures + 1 →
      (collectCandidates P cons sim prof ex ((idx, slug) :: rest) failures
        = ⟨idx, 0, false, fallback_recommendation slug⟩
            :: (rest.filter (fun p => p.2 ∉ ex)).map
                (fun p => ⟨p.1, 0, false, fallback_recommendation p.2⟩))
      ∧ collectLookups P cons sim prof ex ((idx, slug) :: rest) failures = [slug]
      ∧ ∀ (j : Nat) (s : String), (j, s) ∈ rest → s ∉ ex →
          (⟨j, 0, false, fallback_recommendation s⟩ : Cand)
            ∈ collectCandidates P cons sim prof ex ((idx, slug) :: rest) failures := by
  intro P cons sim prof ex idx slug rest failures hex hP hth
  have hcand : collectCandidates P cons sim prof ex ((idx, slug) :: rest) failures
      = ⟨idx, 0, false, fallback_recommendation slug⟩
          :: (rest.filter (fun p => p.2 ∉ ex)).map
              (fun p => ⟨p.1, 0, false, fallback_recommendation p.2⟩) := by
    rw [collectCandidates, if_neg hex, hP]
    dsimp only
    rw [if_pos hth]
  have hlook : collectLookups P cons sim prof ex ((idx, slug) :: rest) failures = [slug] := by
    rw [collectLookups, if_neg hex, hP]
    dsimp only
    rw [if_pos hth]
  refine ⟨hcand, hlook, ?_⟩
  intro j s hjs hs
  rw [hcand]
  refine List.mem_cons_of_mem _ (List.mem_map.mpr ⟨(j, s), ?_, rfl⟩)
  exact List.mem_filter.mpr ⟨hjs, by simpa using hs⟩

theorem C4_amended_witness :
    (collectCandidates allFail {} none ⟨∅, ∅, ∅⟩ {"x"} [(0, "a"), (1, "x"), (2, "b")] 5
      = ⟨0, 0, false, fallback_recommendation "a"⟩
          :: ([(1, "x"), (2, "b")].filter (fun p => p.2 ∉ ({"x"} : Finset String))).map
              (fun p => ⟨p.1, 0, false, fallback_recommendation p.2⟩))
    ∧ collectLookups allFail {} none ⟨∅, ∅, ∅⟩ {"x"} [(0, "a"), (1, "x"), (2, "b")] 5
      = ["a"] :=
  ⟨(C4_amended_fast_fallback allFail {} none ⟨∅, ∅, ∅⟩ {"x"} 0 "a" [(1, "x"), (2, "b")] 5
      (by decide) rfl (by decide)).1,
   (C4_amended_fast_fallback allFail {} none ⟨∅, ∅, ∅⟩ {"x"} 0 "a" [(1, "x"), (2, "b")] 5
      (by decide) rfl (by decide)).2.1⟩

/-- C9: the fallback path bypasses the constraint filter. (i) Any non-excluded
pool entry whose metadata fetch fails appears as a fallback item among the
collected candidates, whatever constraints or similar-to reference are active.
(ii) When the loop visits an entry whose fetch succeeds but which fails the
constraint filter, the entry is dropped entirely: the step contributes
nothing, and no candidate carries its pool index. (iii) In a concrete run with
an active genre constraint, the failing first pool entry still appears (score
0.0) while every successfully fetched candidate lacking the genre is dropped. -/
theorem C9_fallback_bypasses_filter :
    (∀ (P : String → Option FilmMetadata) (cons : RefinementConstraints)
      (sim : Option FilmMetadata) (prof : UserProfile) (ex : Finset String)
      (L : List (Nat × String)) (f : Nat) (j : Nat) (s : String),
      (j, s) ∈ L → s ∉ ex → P s = none →
      fallback_recommendation s
        ∈ (collectCandidates P cons sim prof ex L f).map (fun c => c.item))
    ∧ (∀ (P : String → Option FilmMetadata) (cons : RefinementConstraints)
        (sim : Option FilmMetadata) (prof : UserProfile) (ex : Finset String)
        (j : Nat) (s : String) (rest : List (Nat × String)) (f : Nat)
        (meta : FilmMetadata),
        ((j, s) :: rest : List (Nat × String)).Pairwise (fun p q => p.1 < q.1) →
        s ∉ ex → P s = some meta → matches_constraints meta cons sim = false →
        (collectCandidates P cons sim prof ex ((j, s) :: rest) f
          = collectCandidates P cons sim prof ex rest f)
        ∧ ∀ c ∈ collectCandidates P cons sim prof ex ((j, s) :: rest) f, c.idx ≠ j)
    ∧ ((recommend_for_user exLookup c9prov "alice" 5 (some "horror genre") ∅).map
        (List.map (fun it => it.film_id)) = .ok ["the-godfather"]) := by
  refine ⟨?_, ?_, by with_unfolding_all rfl⟩
  · intro P cons sim prof ex L
    induction L with
    | nil => intro f j s hjs; simp at hjs
    | cons hd tl ih =>
      rcases hd with ⟨idx, slug⟩
      intro f j s hjs hs hP
      rw [collectCandidates]
      rcases List.mem_cons.mp hjs with heq | hmem
      · injection heq with h1 h2
        subst h1; subst h2
        rw [if_neg hs, hP]
        dsimp only
        split_ifs with hth
        · exact List.mem_map.mpr ⟨_, List.mem_cons_self _ _, rfl⟩
        · exact List.mem_map.mpr ⟨_, List.mem_cons_self _ _, rfl⟩
      · by_cases hex : slug ∈ ex
        · rw [if_pos hex]
          exact ih f j s hmem hs hP
        · rw [if_neg hex]
          cases hQ : P slug with
          | none =>
            dsimp only
            split_ifs with hth
            · refine List.mem_map.mpr ⟨⟨j, 0, false, fallback_recommendation s⟩, ?_, rfl⟩
              refine List.mem_cons_of_mem _ (List.mem_map.mpr ⟨(j, s), ?_, rfl⟩)
              exact List.mem_filter.mpr ⟨hmem, by simpa using hs⟩
            · have := ih (f + 1) j s hmem hs hP
              obtain ⟨c, hc, hce⟩ := List.mem_map.mp this
              exact List.mem_map.mpr ⟨c, List.mem_cons_of_mem _ hc, hce⟩
          | some meta =>
            dsimp only
            split_ifs with hm
            · have := ih f j s hmem hs hP
              obtain ⟨c, hc, hce⟩ := List.mem_map.mp this
              exact List.mem_map.mpr ⟨c, List.mem_cons_of_mem _ hc, hce⟩
            · exact ih f j s hmem hs hP
  · intro P cons sim prof ex j s rest f meta hpw hs hP hm
    have heq : collectCandidates P cons sim prof ex ((j, s) :: rest) f
        = collectCandidates P cons sim prof ex rest f := by
      rw [collectCandidates, if_neg hs, hP]
      dsimp only
      rw [if_neg (by simp [hm])]
    refine ⟨heq, ?_⟩
    intro c hc
    rw [heq] at hc
    obtain ⟨p, hp, hpe⟩ := List.mem_map.mp (collect_idx_mem P cons sim prof ex rest f c hc)
    have := (List.pairwise_cons.mp hpw).1 p hp
    omega

theorem C9_witness :
    (fallback_recommendation "a"
      ∈ (collectCandidates allFail { include_genres := ["horror"] } none ⟨∅, ∅, ∅⟩ ∅
          [(0, "a")] 0).map (fun c => c.item))
    ∧ (collectCandidates evalProv { include_genres := ["horror"] } none ⟨∅, ∅, ∅⟩ ∅
        [(0, "the-godfather")] 0
      = collectCandidates evalProv { include_genres := ["horror"] } none ⟨∅, ∅, ∅⟩ ∅
          [] 0) :=
  ⟨(C9_fallback_bypasses_filter).1 allFail { include_genres := ["horror"] } none
      ⟨∅, ∅, ∅⟩ ∅ [(0, "a")] 0 0 "a" (by decide) (by decide) rfl,
   ((C9_fallback_bypasses_filter).2.1 evalProv { include_genres := ["horror"] } none
      ⟨∅, ∅, ∅⟩ ∅ 0 "the-godfather" [] 0 gfMeta (by decide) (by decide) rfl
      (by with_unfolding_all rfl)).1⟩

/-- C7: for a user with ingested data and a target whose metadata fetch
succeeds, the evaluator returns the weighted score together with the
three-entry decomposition (features exactly genres, directors, decades), each
entry carrying contribution = similarity × weight, sorted by contribution
descending with feature name ascending as the tie-break, truncated to
`top_n`. -/
theorem C7_top_feature_contributions :
    ∀ (L : String → Option IngestedLists) (P : String → Option FilmMetadata)
      (username film_id : String) (top_n : Int) (lists : IngestedLists)
      (meta : FilmMetadata),
      username ≠ "" → film_id ≠ "" → ¬ top_n < 1 →
      L username = some lists → P film_id = some meta →
      (top_feature_contributions L P username film_id top_n
        = .ok ((similarity_score (build_user_profile lists.watched P) meta).1,
            ((featureDecomposition (build_user_profile lists.watched P) meta).insertionSort
              contribLE).take top_n.toNat))
      ∧ (featureDecomposition (build_user_profile lists.watched P) meta).map
          (fun c => c.feature) = ["genres", "directors", "decades"]
      ∧ (∀ c ∈ (featureDecomposition (build_user_profile lists.watched P) meta).insertionSort
            contribLE, c.contribution = c.similarity * c.weight)
      ∧ ((featureDecomposition (build_user_profile lists.watched P) meta).insertionSort
            contribLE).Pairwise contribLE := by
  intro L P username film_id top_n lists meta hu hf htop hl hP
  refine ⟨?_, rfl, ?_, List.sorted_insertionSort contribLE _⟩
  · simp [top_feature_contributions, hu, hf, htop, hl, hP]
  · intro c hc
    rw [List.mem_insertionSort] at hc
    simp only [featureDecomposition, List.mem_cons, List.not_mem_nil, or_false] at hc
    rcases hc with rfl | rfl | rfl
    · exact mul_comm _ _
    · exact mul_comm _ _
    · exact mul_comm _ _

theorem C7_witness :
    top_feature_contributions exLookup evalProv "alice" "the-godfather" 3
      = .ok ((similarity_score (build_user_profile exLists.watched evalProv) gfMeta).1,
          ((featureDecomposition (build_user_profile exLists.watched evalProv) gfMeta).insertionSort
            contribLE).take (3 : Int).toNat) :=
  (C7_top_feature_contributions exLookup evalProv "alice" "the-godfather" 3 exLists gfMeta
    (by decide) (by decide) (by decide) rfl rfl).1

/-! ## Empty-profile lemmas (C5) -/

theorem matches_constraints_default (meta : FilmMetadata) :
    matches_constraints meta {} none = true := rfl

theorem similarity_empty_score (meta : FilmMetadata) :
    (similarity_score ⟨∅, ∅, ∅⟩ meta).1 = 0 := by
  have hform : (similarity_score (⟨∅, ∅, ∅⟩ : UserProfile) meta).1 =
      GENRE_WEIGHT * jaccard ∅ (orEmpty meta.genres).toFinset
        + DIRECTOR_WEIGHT * jaccard ∅ (orEmpty meta.directors).toFinset
        + DECADE_WEIGHT * jaccard ∅ (candDecades meta.year) := rfl
  rw [hform, jaccard_empty_left, jaccard_empty_left, jaccard_empty_left]
  norm_num

theorem profileIsEmpty_eq (p : UserProfile) (h : profileIsEmpty p = true) :
    p = ⟨∅, ∅, ∅⟩ := by
  rcases p with ⟨g, d, dir⟩
  have h2 := of_decide_eq_true h
  obtain ⟨hg, hd, hdir⟩ := h2
  simp only at hg hd hdir
  rw [hg, hd, hdir]

theorem collect_key_empty (P : String → Option FilmMetadata) (ex : Finset String) :
    ∀ (L : List (Nat × String)) (f : Nat),
      (collectCandidates P {} none ⟨∅, ∅, ∅⟩ ex L f).map
          (fun c => (c.idx, c.score, c.item.film_id))
        = (L.filter (fun p => p.2 ∉ ex)).map (fun p => (p.1, (0 : ℚ), p.2)) := by
  intro L
  induction L with
  | nil => intro f; rfl
  | cons hd tl ih =>
    rcases hd with ⟨idx, slug⟩
    intro f
    rw [collectCandidates]
    by_cases hex : slug ∈ ex
    · rw [if_pos hex, List.filter_cons,
        if_neg (show ¬ (decide (slug ∉ ex) = true) by simpa using hex)]
      exact ih f
    · rw [if_neg hex, List.filter_cons,
        if_pos (show decide (slug ∉ ex) = true by simpa using hex)]
      cases hP : P slug with
      | none =>
        dsimp only
        split_ifs with hth
        · simp only [List.map_cons, List.map_map]
          rfl
        · simp only [List.map_cons]
          rw [ih (f + 1)]
          rfl
      | some meta =>
        dsimp only
        rw [if_pos (matches_constraints_default meta)]
        simp only [List.map_cons]
        rw [ih f]
        congr 1
        show ((idx : Nat), (similarity_score (⟨∅, ∅, ∅⟩ : UserProfile) meta).1, slug)
          = (idx, (0 : ℚ), slug)
        rw [similarity_empty_score meta]

theorem collect_empty_score_zero (P : String → Option FilmMetadata) (ex : Finset String)
    (L : List (Nat × String)) (f : Nat) (c : Cand)
    (hc : c ∈ collectCandidates P {} none ⟨∅, ∅, ∅⟩ ex L f) : c.score = 0 := by
  have hmem : (c.idx, c.score, c.item.film_id)
      ∈ (L.filter (fun p => p.2 ∉ ex)).map (fun p => (p.1, (0 : ℚ), p.2)) := by
    rw [← collect_key_empty P ex L f]
    exact List.mem_map.mpr ⟨c, hc, rfl⟩
  obtain ⟨p, _, hpe⟩ := List.mem_map.mp hmem
  exact (Prod.ext_iff.mp (Prod.ext_iff.mp hpe.symm).2).1

theorem collect_empty_sorted (P : String → Option FilmMetadata) (ex : Finset String)
    (L : List (Nat × String)) (f : Nat)
    (hpw : L.Pairwise (fun p q => p.1 < q.1)) :
    (collectCandidates P {} none ⟨∅, ∅, ∅⟩ ex L f).Pairwise candLE := by
  have hidx := collect_idx_pairwise P {} none ⟨∅, ∅, ∅⟩ ex L f hpw
  refine hidx.imp_of_mem ?_
  intro a b ha hb hlt
  exact Or.inr ⟨by rw [collect_empty_score_zero P ex L f a ha,
    collect_empty_score_zero P ex L f b hb], le_of_lt hlt⟩

theorem collect_empty_film_ids (P : String → Option FilmMetadata) (ex : Finset String)
    (L : List (Nat × String)) (f : Nat) :
    (collectCandidates P {} none ⟨∅, ∅, ∅⟩ ex L f).map (fun c => c.item.film_id)
      = (L.filter (fun p => p.2 ∉ ex)).map Prod.snd := by
  have h := congrArg (List.map (fun t : Nat × ℚ × String => t.2.2))
    (collect_key_empty P ex L f)
  simpa only [List.map_map] using h

theorem enumFrom_filter_map_snd (ex : Finset String) :
    ∀ (l : List String) (n : Nat),
      ((l.enumFrom n).filter (fun p => p.2 ∉ ex)).map Prod.snd
        = l.filter (fun s => s ∉ ex) := by
  intro l
  induction l with
  | nil => intro n; rfl
  | cons a l ih =>
    intro n
    rw [List.enumFrom_cons, List.filter_cons, List.filter_cons]
    by_cases ha : a ∈ ex
    · rw [if_neg (show ¬ (decide ((n, a).2 ∉ ex) = true) by simpa using ha),
        if_neg (show ¬ (decide (a ∉ ex) = true) by simpa using ha)]
      exact ih (n + 1)
    · rw [if_pos (show decide ((n, a).2 ∉ ex) = true by simpa using ha),
        if_pos (show decide (a ∉ ex) = true by simpa using ha), List.map_cons]
      rw [ih (n + 1)]

/-- C5 (amended): with an empty profile, the engine returns exactly the first
`k` sorted candidates in the global (score desc, pool-index asc) order, with
no overlap-based preference; in particular, when the prompt is absent (no
constraints active — all candidate scores are then equal), it returns the
first `k` non-excluded pool entries in pool order. -/
theorem C5_amended_empty_profile :
    ∀ (L : String → Option IngestedLists) (P : String → Option FilmMetadata)
      (username : String) (k : Int) (prompt : Option String) (exS : Finset String)
      (lists : IngestedLists),
      username ≠ "" → ¬ k < 1 → L username = some lists →
      profileIsEmpty (build_user_profile lists.watched P) = true →
      (recommend_for_user L P username k prompt exS
        = .ok (((sortCands (collectCandidates P (parse_refinement_prompt prompt).constraints
            (resolveSimilar P (parse_refinement_prompt prompt).constraints lists
              (baseExclude lists exS)).1
            (build_user_profile lists.watched P)
            (resolveSimilar P (parse_refinement_prompt prompt).constraints lists
              (baseExclude lists exS)).2
            POPULAR_FILM_SLUGS.enum 0)).take
              (effectiveK (parse_refinement_prompt prompt).constraints k).toNat).map
            (fun c => c.item)))
      ∧ (prompt = none →
          (recommend_for_user L P username k prompt exS).map
              (List.map (fun it => it.film_id))
            = .ok ((POPULAR_FILM_SLUGS.filter
                (fun s => s ∉ baseExclude lists exS)).take k.toNat)) := by
  intro L P username k prompt exS lists hu hk hl hempty
  have hbase := recommend_ok_eq L P username k prompt exS lists hu hk hl
  constructor
  · rw [hbase]
    rw [selectItems, if_pos hempty]
  · intro hnone
    subst hnone
    have hcons : (parse_refinement_prompt none).constraints = {} := rfl
    have hprof := profileIsEmpty_eq _ hempty
    rw [hprof] at hempty
    rw [hbase, hcons, hprof]
    have hresolved : resolveSimilar P {} lists (baseExclude lists exS)
        = (none, baseExclude lists exS) := rfl
    rw [hresolved]
    have hsorted : sortCands (collectCandidates P {} none ⟨∅, ∅, ∅⟩
        (baseExclude lists exS) POPULAR_FILM_SLUGS.enum 0)
        = collectCandidates P {} none ⟨∅, ∅, ∅⟩
            (baseExclude lists exS) POPULAR_FILM_SLUGS.enum 0 :=
      List.Sorted.insertionSort_eq
        (collect_empty_sorted P (baseExclude lists exS) POPULAR_FILM_SLUGS.enum 0
          (enum_pairwise POPULAR_FILM_SLUGS))
    rw [selectItems, if_pos hempty, hsorted]
    have heffk : effectiveK ({} : RefinementConstraints) k = k := rfl
    rw [heffk]
    simp only [Except.map, List.map_map, List.map_take, Function.comp_def]
    rw [collect_empty_film_ids P (baseExclude lists exS) POPULAR_FILM_SLUGS.enum 0]
    rw [show POPULAR_FILM_SLUGS.enum = POPULAR_FILM_SLUGS.enumFrom 0 from rfl]
    rw [enumFrom_filter_map_snd (baseExclude lists exS) POPULAR_FILM_SLUGS 0]

/-- C5 counterexample (to the claim as stated): with an empty profile, an
active genre constraint and all candidate scores equal (all 0), the result is
not the first `k` non-excluded pool entries in pool order — the filtered-out
first entry is skipped. -/
theorem C5_counterexample_constraint_filter :
    profileIsEmpty (build_user_profile exLists.watched c5prov) = true
    ∧ ((collectCandidates c5prov (parse_refinement_prompt (some "horror genre")).constraints
          none (build_user_profile exLists.watched c5prov)
          (baseExclude exLists ∅) POPULAR_FILM_SLUGS.enum 0).all
        (fun c => c.score == 0) = true)
    ∧ (recommend_for_user exLookup c5prov "alice" 1 (some "horror genre") ∅).map
        (List.map (fun it => it.film_id)) = .ok ["the-godfather-part-ii"]
    ∧ (POPULAR_FILM_SLUGS.filter
        (fun s => s ∉ baseExclude exLists ∅)).take (1 : Int).toNat
      = ["the-godfather"] := by
  refine ⟨by with_unfolding_all rfl, by with_unfolding_all rfl,
    by with_unfolding_all rfl, by with_unfolding_all rfl⟩

theorem C5_amended_witness :
    (recommend_for_user exLookup allFail "alice" 3 none ∅).map
        (List.map (fun it => it.film_id))
      = .ok ((POPULAR_FILM_SLUGS.filter
          (fun s => s ∉ baseExclude exLists ∅)).take (3 : Int).toNat) :=
  (C5_amended_empty_profile exLookup allFail "alice" 3 none ∅ exLists
    (by decide) (by decide) rfl (by with_unfolding_all rfl)).2 rfl

theorem C10_witness :
    (recommend_for_user exLookup allFail "alice" 0 (some "5 more") ∅
        = .error (.validation "k must be >= 1"))
      ∧ (1 ≤ (5 : Int) ∧ (5 : Int) ≤ 20) :=
  ⟨(C10_k_validated_before_override exLookup allFail "alice" 0 (some "5 more") ∅).1
      (by decide) (by decide),
   (C10_k_validated_before_override exLookup allFail "alice" 0 (some "5 more") ∅).2
      5 (by decide)⟩

end LBX
